import Mathlib

/-!
Shallow embedding of the Ridibooks metadata-download worker
(`worker.py`, class `Worker`), together with theorems checking the
natural-language specification against it.

Strings are modelled as `List Char` internally with `String` wrappers at
the boundaries.  Machine floats produced by Python's `float(...)` are
modelled as exact rationals: every value a claim mentions (small integers,
short decimal fractions) is exactly representable, so no rounding is lost.
-/

deriving instance DecidableEq for Except

namespace Ridibooks

/-- Error kinds of the pipeline, following the spec's vocabulary.
`missingField` covers Python `IndexError`/`KeyError` on absent source
nodes or dict keys, `dateFormat` the `ValueError` raised inside
`_format_date`, `numericFormat` a failing `float(...)` conversion,
`typeError` `float(None)`, `attributeError` `None.endswith(...)`. -/
inductive Err where
  | fetchError
  | malformedStructuredData
  | missingField
  | dateFormat
  | numericFormat
  | typeError
  | attributeError
deriving DecidableEq, Repr

/-- Python `str.isspace`-style test restricted to the ASCII whitespace
characters that `\s` and `str.strip()` recognise there. -/
def pyIsSpace (c : Char) : Bool :=
  c = ' ' || c = '\t' || c = '\n' || c = '\r' || c = '\x0b' || c = '\x0c'

/-- ASCII digit test (`'0' ≤ c ≤ '9'`), the fragment of Python's `\d`
exercised here. -/
def pyIsDigit (c : Char) : Bool := 48 ≤ c.toNat && c.toNat ≤ 57

/-- Python `str.strip()` with no argument: drop leading and trailing
whitespace. -/
def pyStrip (cs : List Char) : List Char :=
  (((cs.dropWhile pyIsSpace).reverse).dropWhile pyIsSpace).reverse

/-- Python `str.lower()` restricted to ASCII letters. -/
def pyLower (s : String) : String := ⟨s.data.map Char.toLower⟩

/-- Numeric value of a list of decimal digit characters, most significant
first (the value `int` computes once the shape checks passed). -/
def digitsVal (ds : List Char) : Nat :=
  ds.foldl (fun a c => 10 * a + (c.toNat - '0'.toNat)) 0

/-- Parse a nonempty all-digit character list, else fail. -/
def parseDigits (ds : List Char) : Option Nat :=
  if ds ≠ [] ∧ ds.all pyIsDigit then some (digitsVal ds) else none

/-- Python `int(s)` on the fragment used by `_format_date`: surrounding
whitespace is stripped, an optional sign is accepted, then a nonempty run
of decimal digits; anything else raises `ValueError` (modelled as
`none`).  Underscore digit grouping is not modelled; no claim uses it. -/
def pyInt (cs : List Char) : Option Int :=
  match pyStrip cs with
  | '+' :: ds => (parseDigits ds).map Int.ofNat
  | '-' :: ds => (parseDigits ds).map (fun n => -(n : Int))
  | ds => (parseDigits ds).map Int.ofNat

/-- Python `float(s)` on the decimal fragment used by the worker
(optional sign, digits, optional fractional part); exponents and the
`inf`/`nan` spellings are outside every claim and not modelled.  The
value is kept as an exact rational. -/
def pyFloat (s : String) : Option ℚ :=
  let t := pyStrip s.data
  let signAndRest : ℚ × List Char :=
    match t with
    | '+' :: r => (1, r)
    | '-' :: r => (-1, r)
    | r => (1, r)
  let sign := signAndRest.1
  let u := signAndRest.2
  let ip := u.takeWhile pyIsDigit
  let r1 := u.drop ip.length
  match r1 with
  | [] => if ip ≠ [] then some (sign * (digitsVal ip : ℚ)) else none
  | '.' :: fr =>
    let fp := fr.takeWhile pyIsDigit
    if fr.drop fp.length = [] ∧ (ip ≠ [] ∨ fp ≠ []) then
      some (sign * ((digitsVal ip : ℚ) + (digitsVal fp : ℚ) / (10 : ℚ) ^ fp.length))
    else none
  | _ => none

/-- Model of `calibre.utils.cleantext.unescape` (third-party helper):
replace HTML entities by their characters, restricted to the named
entities this development exercises. -/
def unescapeChars : List Char → List Char
  | [] => []
  | '&' :: 'q' :: 'u' :: 'o' :: 't' :: ';' :: rest => '"' :: unescapeChars rest
  | '&' :: 'a' :: 'm' :: 'p' :: ';' :: rest => '&' :: unescapeChars rest
  | '&' :: 'l' :: 't' :: ';' :: rest => '<' :: unescapeChars rest
  | '&' :: 'g' :: 't' :: ';' :: rest => '>' :: unescapeChars rest
  | '&' :: 'a' :: 'p' :: 'o' :: 's' :: ';' :: rest => '\'' :: unescapeChars rest
  | c :: rest => c :: unescapeChars rest

/-- Semantics of Python `re.sub(r'^"(.*)"$', r'\1', s)`: `.` does not
cross a newline and `$` also matches just before one trailing newline,
so the quotes are stripped when the string is `"m"` or `"m"\n` with no
newline inside `m`; otherwise the string is returned unchanged. -/
def stripOuterQuotes (cs : List Char) : List Char :=
  match cs with
  | '"' :: rest =>
    if rest.getLast? = some '"' ∧ '\n' ∉ rest.dropLast then
      rest.dropLast
    else if rest.getLast? = some '\n' ∧ rest.dropLast.getLast? = some '"' ∧
        '\n' ∉ rest.dropLast.dropLast then
      rest.dropLast.dropLast ++ ['\n']
    else cs
  | _ => cs

/-- The worker's `_format_item`: HTML-unescape, then strip one layer of
surrounding double quotes (`re.sub('^"(.*)"$', '\\1', unescape(str))`). -/
def format_item (s : String) : String :=
  ⟨stripOuterQuotes (unescapeChars s.data)⟩

/-- The spec's reading of `stripQuotes` in the opposite order: strip the
surrounding quotes first, then HTML-unescape.  Kept only to compare with
`format_item`. -/
def spec_stripQuotes_then_unescape (s : String) : String :=
  ⟨unescapeChars (stripOuterQuotes s.data)⟩

/-- Index of the first occurrence of `sep` in `cs`, if any. -/
def findOcc (sep : List Char) : List Char → Option Nat
  | [] => if sep = [] then some 0 else none
  | c :: cs => if sep.isPrefixOf (c :: cs) then some 0 else (findOcc sep cs).map (· + 1)

/-- Python `str.split(sep)` for a nonempty separator, via fuel (the fuel
`cs.length + 1` always suffices because every step consumes at least the
separator). -/
def pySplitAux (sep : List Char) : Nat → List Char → List (List Char)
  | 0, cs => [cs]
  | fuel + 1, cs =>
    match findOcc sep cs with
    | none => [cs]
    | some i => cs.take i :: pySplitAux sep fuel (cs.drop (i + sep.length))

/-- Python `str.split(sep)` for a nonempty separator. -/
def pySplit (sep cs : List Char) : List (List Char) :=
  pySplitAux sep (cs.length + 1) cs

/-- The worker's `_format_list`: `_format_item`, split on commas, strip
each element. -/
def format_list (s : String) : List String :=
  (pySplit [','] (format_item s).data).map (fun cs => (⟨pyStrip cs⟩ : String))

/-! ### Series detection

`load_details` runs `re.search(u'(.*)\s*(\d+)권', title)` (or the same
pattern with `화`) on the title.  For those two patterns Python's
backtracking is deterministic once the start position and the length
matched by the greedy `(.*)` are fixed: `\s` and `\d` are disjoint and
the final literal (`권`/`화`) is neither a space nor a digit, so `\s*`
must take the whole whitespace run and `(\d+)` the whole digit run.  The
functions below implement exactly that: the leftmost start position
wins, and at a given start the longest `(.*)` wins. -/

/-- Try to match `\s*(\d+)c` at the very start of `rs`, returning the
digits of the group when it matches. -/
def trySuffix (c : Char) (rs : List Char) : Option (List Char) :=
  let rs1 := rs.dropWhile pyIsSpace
  let ds := rs1.takeWhile pyIsDigit
  if ds ≠ [] ∧ (rs1.drop ds.length).head? = some c then some ds else none

/-- Try `(.*)\s*(\d+)c` at the start of `cs` with `(.*)` matching exactly
`k` characters, largest `k` first (greedy `.*`). -/
def tryDotStar (c : Char) (cs : List Char) : Nat → Option (List Char × List Char)
  | 0 => (trySuffix c cs).map (fun ds => ([], ds))
  | k + 1 =>
    match trySuffix c (cs.drop (k + 1)) with
    | some ds => some (cs.take (k + 1), ds)
    | none => tryDotStar c cs k

/-- Match `(.*)\s*(\d+)c` anchored at the start of `cs`; `.` cannot cross
a newline, so `(.*)` ranges over at most the leading newline-free run. -/
def matchAt (c : Char) (cs : List Char) : Option (List Char × List Char) :=
  tryDotStar c cs (cs.takeWhile (· ≠ '\n')).length

/-- Python `re.search` for the pattern `(.*)\s*(\d+)c`: leftmost start
position first, greedy within a start.  Returns (group 1, group 2). -/
def reSearchSeries (c : Char) : List Char → Option (List Char × List Char)
  | [] => matchAt c []
  | x :: xs =>
    match matchAt c (x :: xs) with
    | some r => some r
    | none => reSearchSeries c (xs)

/-- Series detection of `load_details` (lines 155-162): if the title ends
with `권` search for `(.*)\s*(\d+)권`, otherwise search for
`(.*)\s*(\d+)화`; on a match, group 1 is the series name and
`float(group 2)` the series index. -/
def detectSeries (title : String) : Option (String × ℚ) :=
  let cs := title.data
  let m := if cs.getLast? = some '권' then reSearchSeries '권' cs
           else reSearchSeries '화' cs
  m.map (fun p => ((⟨p.1⟩ : String), (digitsVal p.2 : ℚ)))

/-! ### Meta-tag extraction, identifier derivation, date parsing -/

/-- One `<meta>` node as seen by `_find_meta`: `node.get('property')` and
`node.get('content')` each return the attribute or `None`. -/
structure MetaEntry where
  property : Option String
  content : Option String
deriving DecidableEq, Repr

/-- The worker's `_find_meta`:
`[_.get('content') for _ in node if _.get('property') == property][0]` —
the `content` of the first node whose `property` equals the request, an
`IndexError` (`missingField`) when the comprehension is empty. -/
def find_meta (node : List MetaEntry) (property : String) : Except Err (Option String) :=
  match (node.filter (fun m => m.property = some property)).map (fun m => m.content) with
  | [] => .error .missingField
  | c :: _ => .ok c

/-- Identifier derivation of `load_details` (lines 122-124):
`x = url.split("/books/"); y = x[1].split("?_"); ridibooks_id = y[0]`.
`x[1]` raises `IndexError` when the URL has no `/books/` segment. -/
def extractRidibooksId (url : String) : Except Err String :=
  match pySplit "/books/".data url.data with
  | _ :: x1 :: _ => .ok (⟨(pySplit "?_".data x1).headD []⟩ : String)
  | _ => .error .missingField

/-- A Python `datetime.datetime(year, month, day, tzinfo=utc_tz)` value. -/
structure PyDatetime where
  year : Int
  month : Int
  day : Int
  tzIsUtc : Bool
deriving DecidableEq, Repr

/-- Gregorian leap-year rule, as `datetime` uses it. -/
def isLeap (y : Int) : Bool := y % 4 = 0 ∧ (y % 100 ≠ 0 ∨ y % 400 = 0)

/-- Number of days of month `m` of year `y` (only meaningful for
`1 ≤ m ≤ 12`). -/
def daysInMonth (y m : Int) : Int :=
  if m = 2 then (if isLeap y then 29 else 28)
  else if m = 4 ∨ m = 6 ∨ m = 9 ∨ m = 11 then 30
  else 31

/-- The `datetime.datetime` constructor with the UTC timezone: validates
`MINYEAR ≤ year ≤ MAXYEAR`, `1 ≤ month ≤ 12`, `1 ≤ day ≤ days in month`,
raising `ValueError` (`dateFormat` here) otherwise. -/
def mkDatetimeUtc (y m d : Int) : Except Err PyDatetime :=
  if 1 ≤ y ∧ y ≤ 9999 ∧ 1 ≤ m ∧ m ≤ 12 ∧ 1 ≤ d ∧ d ≤ daysInMonth y m then
    .ok ⟨y, m, d, true⟩
  else .error .dateFormat

/-- The worker's `_format_date`: `int` of the slices `[0:4]`, `[4:6]`,
`[6:]` of the text, then `datetime.datetime(year, month, day,
tzinfo=utc_tz)`.  Python slices never fail, so nothing checks the
length: failure comes only from `int` or from the constructor. -/
def format_date (date_text : String) : Except Err PyDatetime := do
  let cs := date_text.data
  let year ← (pyInt (cs.take 4)).elim (.error .dateFormat) .ok
  let month ← (pyInt ((cs.drop 4).take 2)).elim (.error .dateFormat) .ok
  let day ← (pyInt (cs.drop 6)).elim (.error .dateFormat) .ok
  mkDatetimeUtc year month day

/-! ### Genre/tag mapping -/

/-- Python `dict(...).get(k, None)` for a dict built from an association
list: the last binding of a key wins, a missing key gives `None`. -/
def pyDictGet (prs : List (String × List String)) (k : String) : Option (List String) :=
  ((prs.filter (fun p => p.1 = k)).map Prod.snd).getLast?

/-- Append `x` to `acc` unless it is already present — the body of the
two `if ... not in tags_to_add: tags_to_add.append(...)` branches. -/
def appendNew (acc : List String) (x : String) : List String :=
  if x ∈ acc then acc else acc ++ [x]

/-- One loop iteration of `_convert_genres_to_calibre_tags`.  Note the
Python truthiness test `if tags:`: a key mapped to the *empty* list
behaves exactly like a missing key, so the raw tag falls through. -/
def convertStep (lookup : List (String × List String)) (acc : List String)
    (genre_tag : String) : List String :=
  match pyDictGet lookup (pyLower genre_tag) with
  | some (t :: ts) => (t :: ts).foldl appendNew acc
  | _ => appendNew acc genre_tag

/-- The worker's `_convert_genres_to_calibre_tags`: lowercase the lookup
keys (`dict((k.lower(), v) for (k, v) in ...)`), then fold the loop over
the raw tags starting from the empty output list. -/
def convert_genres_to_calibre_tags (lookup : List (String × List String))
    (genre_tags : List String) : List String :=
  let lowered := lookup.map (fun p => (pyLower p.1, p.2))
  genre_tags.foldl (convertStep lowered) []

/-- The mapping step exactly as the spec words it: a found key appends
every mapped tag not already present (also when the mapped sequence is
empty, appending nothing); only a *missing* key passes the raw tag
through.  Kept only to compare with the implementation. -/
def specConvertStep (lookup : List (String × List String)) (acc : List String)
    (genre_tag : String) : List String :=
  match pyDictGet lookup (pyLower genre_tag) with
  | some ts => ts.foldl appendNew acc
  | none => appendNew acc genre_tag

/-- The spec's wording of the genre mapper, folded over the raw tags. -/
def specConvertGenres (lookup : List (String × List String))
    (genre_tags : List String) : List String :=
  let lowered := lookup.map (fun p => (pyLower p.1, p.2))
  genre_tags.foldl (specConvertStep lowered) []

/-- The amended wording of the mapping step: a key mapped to a nonempty
sequence appends each new mapped tag; a missing key — or one mapped to
the empty sequence, which Python truthiness treats the same way —
appends the raw tag if new. -/
def specConvertStepAmended (lookup : List (String × List String)) (acc : List String)
    (genre_tag : String) : List String :=
  match pyDictGet lookup (pyLower genre_tag) with
  | some ts => if ts = [] then appendNew acc genre_tag else ts.foldl appendNew acc
  | none => appendNew acc genre_tag

/-- The amended genre mapper, folded over the raw tags. -/
def specConvertGenresAmended (lookup : List (String × List String))
    (genre_tags : List String) : List String :=
  let lowered := lookup.map (fun p => (pyLower p.1, p.2))
  genre_tags.foldl (specConvertStepAmended lowered) []

/-! ### Page model and `parse_tags` -/

/-- A nested JSON object such as `book_info['author']`; `name` is `None`
when the object has no `'name'` key. -/
structure BookPerson where
  name : Option String
deriving DecidableEq, Repr

/-- The JSON object decoded from the Book JSON-LD block, restricted to
the keys the worker reads.  `none` on an outer field models a missing
key (`KeyError` on subscript, `False` for the `in` test). -/
structure BookInfo where
  author : Option BookPerson
  translator : Option BookPerson
  publisher : Option BookPerson
  datePublished : Option String
  description : Option String
  keywords : Option String
deriving DecidableEq, Repr

/-- One `<script type="application/ld+json">` text body:
`hasBookMarker` records whether the text contains the literal substring
`'"@type": "Book"'`, and `parsed` the result of the entity repairs plus
`json.loads` (`none` models a decode failure). -/
structure LdBlock where
  hasBookMarker : Bool
  parsed : Option BookInfo
deriving DecidableEq, Repr

/-- One `<p class="info_category_wrap">` genre breadcrumb node:
`anchors` the text contents of its `<a>` children (xpath `a[1]` takes
the head), `subGenres` the raw text contents of the links following the
arrow icons. -/
structure GenreNode where
  anchors : List String
  subGenres : List String
deriving DecidableEq, Repr

/-- The parsed document tree, restricted to the three queries the worker
issues: the filtered head meta tags, the JSON-LD script bodies, and the
genre breadcrumb nodes. -/
structure Page where
  metas : List MetaEntry
  ldBlocks : List LdBlock
  genreNodes : List GenreNode
deriving DecidableEq, Repr

/-- Selection of the Book JSON-LD block (lines 113-120 and again 177-183):
filter the script bodies by the Book marker, take the first
(`IndexError` when none), repair entities and `json.loads` it. -/
def extractBookInfo (page : Page) : Except Err BookInfo :=
  match page.ldBlocks.filter (fun b => b.hasBookMarker) with
  | [] => .error .malformedStructuredData
  | b :: _ =>
    match b.parsed with
    | some info => .ok info
    | none => .error .malformedStructuredData

/-- Keyword extraction of `parse_tags` (lines 184-188): strip the first
and last character of the `keywords` string and split on the literal
`'", "'` delimiter. -/
def keywordTags (info : BookInfo) : List String :=
  match info.keywords with
  | some kw =>
    let cs := kw.data
    (pySplit ['"', ',', ' ', '"'] ((cs.drop 1).take (cs.length - 2))).map
      (fun l => (⟨l⟩ : String))
  | none => []

/-- Genre-breadcrumb extraction of `parse_tags` (lines 190-208): from
the first container the first link's text is the main genre
(`genre_node.xpath('a[1]')[0]` raises `IndexError` when there is no
link); every container contributes its stripped sub-genre link texts. -/
def genreTagsOf (nodes : List GenreNode) : Except Err (List String) :=
  match nodes with
  | [] => .ok []
  | gn :: _ =>
    match gn.anchors.head? with
    | none => .error .missingField
    | some main =>
      .ok (main :: nodes.foldr
        (fun n acc => n.subGenres.map (fun s => (⟨pyStrip s.data⟩ : String)) ++ acc) [])

/-- The worker's `parse_tags`: re-extract the Book block, build the
keyword and genre tag lists, concatenate them (keywords first), convert
through the genre mapping, and return `None` instead of an empty list. -/
def parse_tags (genreMapping : List (String × List String)) (page : Page) :
    Except Err (Option (List String)) := do
  let info ← extractBookInfo page
  let gts ← genreTagsOf page.genreNodes
  let all_tags := keywordTags info ++ gts
  let calibre_tags := convert_genres_to_calibre_tags genreMapping all_tags
  pure (if calibre_tags = [] then none else some calibre_tags)

/-! ### The `load_details` pipeline with its side effects -/

/-- The author list of the record (lines 130-133):
`_format_list(book_info['author']['name'])`, extended — when the block
has a `translator` key — by `_format_list(book_info['translator']['name'])`
with the literal suffix `(역자)` appended to each name.  A missing inner
`name` key raises `KeyError`. -/
def buildAuthors (info : BookInfo) : Except Err (List String) := do
  let authorPerson ← info.author.elim (.error .missingField) .ok
  let authorName ← authorPerson.name.elim (.error .missingField) .ok
  let base := format_list authorName
  match info.translator with
  | none => pure base
  | some p =>
    let tname ← p.name.elim (.error .missingField) .ok
    pure (base ++ (format_list tname).map (fun t => t ++ "(역자)"))

/-- All raw field values `load_details` has computed by line 145, in the
order the code computes them; every failure of lines 113-145 happens
before any side effect. -/
structure Fields where
  info : BookInfo
  ridibooks_id : String
  isbn : Option String
  cover_url : Option String
  titleOpt : Option String
  authors : List String
  publisher : String
  pubdate : PyDatetime
  comments : String
  rating : ℚ
deriving DecidableEq, Repr

/-- Lines 109-145 of `load_details`: everything up to and including the
rating, with each failure point in source order. -/
def extractFields (url : String) (page : Page) : Except Err Fields := do
  let info ← extractBookInfo page
  let ridibooks_id ← extractRidibooksId url
  let isbn ← find_meta page.metas "books:isbn"
  let cover_url ← find_meta page.metas "og:image"
  let titleOpt ← find_meta page.metas "og:title"
  let authors ← buildAuthors info
  let publisherPerson ← info.publisher.elim (.error .missingField) .ok
  let publisherName ← publisherPerson.name.elim (.error .missingField) .ok
  let dateRaw ← info.datePublished.elim (.error .missingField) .ok
  let pubdate ← format_date dateRaw
  let descriptionRaw ← info.description.elim (.error .missingField) .ok
  let ratingContent ← find_meta page.metas "books:rating:normalized_value"
  let ratingRaw ← ratingContent.elim (.error .typeError) .ok
  let rating ← (pyFloat ratingRaw).elim (.error .numericFormat) .ok
  pure { info, ridibooks_id, isbn, cover_url, titleOpt, authors,
         publisher := format_item publisherName, pubdate,
         comments := format_item descriptionRaw, rating }

/-- The assembled metadata record handed to the cleanup hook and the
result queue. -/
structure Metadata where
  title : String
  authors : List String
  identifier : String × String
  cover_url : Option String
  has_cover : Bool
  publisher : String
  pubdate : PyDatetime
  comments : String
  rating : ℚ
  tags : Option (List String)
  series : Option (String × ℚ)
  language : String
  source_relevance : Int
deriving DecidableEq, Repr

/-- The observable side effects of `load_details`, in the order they are
performed. -/
inductive Effect where
  | cacheIsbnToIdentifier (isbn ridibooks_id : String)
  | cacheIdentifierToCoverUrl (ridibooks_id cover_url : String)
  | cleanDownloadedMetadata (mi : Metadata)
  | publish (mi : Metadata)
deriving DecidableEq, Repr

/-- Python truthiness of an optional string (`None` and `''` are falsy). -/
def optTruthy : Option String → Bool
  | some s => s ≠ ""
  | none => false

/-- Lines 147-151: the two cache notifications, guarded by truthiness of
the id, the ISBN and the cover URL, in source order. -/
def cacheEffects (f : Fields) : List Effect :=
  if f.ridibooks_id ≠ "" then
    (match f.isbn with
     | some s => if s ≠ "" then [Effect.cacheIsbnToIdentifier s f.ridibooks_id] else []
     | none => []) ++
    (match f.cover_url with
     | some c => if c ≠ "" then [Effect.cacheIdentifierToCoverUrl f.ridibooks_id c] else []
     | none => [])
  else []

/-- Lines 153-165: tag mapping (which can still fail on a linkless
breadcrumb node), the `title.endswith` test (an `AttributeError` when the
`og:title` meta had no `content`), series detection, and the final
record.  All of this runs after the cache notifications. -/
def assembleRecord (genreMapping : List (String × List String)) (relevance : Int)
    (page : Page) (f : Fields) : Except Err Metadata := do
  let tags ← parse_tags genreMapping page
  let title ← f.titleOpt.elim (.error .attributeError) .ok
  let series := detectSeries title
  pure { title, authors := f.authors,
         identifier := ("ridibooks", f.ridibooks_id),
         cover_url := f.cover_url, has_cover := optTruthy f.cover_url,
         publisher := f.publisher, pubdate := f.pubdate,
         comments := f.comments, rating := f.rating,
         tags, series, language := "Korean", source_relevance := relevance }

/-- The whole `load_details` call as observed from outside: the list of
side effects it performed, in order, and the exception (if any) that
escaped to `run`'s `except` clause.  `fetched = none` models a failing
`_get_book_page` (whose swallowed exception resurfaces as an
`UnboundLocalError` on `return root`). -/
def load_details (genreMapping : List (String × List String)) (relevance : Int)
    (url : String) (fetched : Option Page) : List Effect × Option Err :=
  match fetched with
  | none => ([], some .fetchError)
  | some page =>
    match extractFields url page with
    | .error e => ([], some e)
    | .ok f =>
      let ce := cacheEffects f
      match assembleRecord genreMapping relevance page f with
      | .error e => (ce, some e)
      | .ok mi => (ce ++ [Effect.cleanDownloadedMetadata mi, Effect.publish mi], none)

/-- The records a trace put on the result queue. -/
def publishedRecords (tr : List Effect) : List Metadata :=
  tr.filterMap (fun e => match e with | Effect.publish mi => some mi | _ => none)

/-- The records a trace passed to `clean_downloaded_metadata`. -/
def cleanedRecords (tr : List Effect) : List Metadata :=
  tr.filterMap (fun e => match e with | Effect.cleanDownloadedMetadata mi => some mi | _ => none)

/-- Whether an effect is one of the two cache notifications. -/
def isCacheEffect : Effect → Bool
  | Effect.cacheIsbnToIdentifier _ _ => true
  | Effect.cacheIdentifierToCoverUrl _ _ => true
  | _ => false

/-- Position of each effect kind in the order the spec states. -/
def effectRank : Effect → Nat
  | Effect.cacheIsbnToIdentifier _ _ => 0
  | Effect.cacheIdentifierToCoverUrl _ _ => 1
  | Effect.cleanDownloadedMetadata _ => 2
  | Effect.publish _ => 3

/-! ### Concrete sample inputs used by witnesses and counterexamples -/

/-- A URL of the expected shape. -/
def goodUrl : String := "https://ridibooks.com/books/987654?_s=search"

/-- A fully populated Book JSON-LD object. -/
def sampleInfo : BookInfo :=
  { author := some ⟨some "Kim Author"⟩
    translator := some ⟨some "Lee Trans"⟩
    publisher := some ⟨some "Good Pub"⟩
    datePublished := some "20230101"
    description := some "A fine book"
    keywords := none }

/-- The meta tags every sample page carries. -/
def sampleMetas : List MetaEntry :=
  [ ⟨some "books:isbn", some "9788900000000"⟩
    , ⟨some "og:image", some "https://img.example/cover.jpg"⟩
    , ⟨some "og:title", some "Mystery Series 3권"⟩
    , ⟨some "books:rating:normalized_value", some "4.5"⟩ ]

/-- A page on which the whole pipeline succeeds. -/
def goodPage : Page :=
  { metas := sampleMetas
    ldBlocks := [⟨true, some sampleInfo⟩]
    genreNodes := [⟨["판타지"], [" 로판 "]⟩] }

/-- Identical to `goodPage` except that the first genre breadcrumb node
has no links, so `parse_tags` raises `IndexError` on
`genre_node.xpath('a[1]')[0]` — after the cache notifications ran. -/
def badGenrePage : Page :=
  { metas := sampleMetas
    ldBlocks := [⟨true, some sampleInfo⟩]
    genreNodes := [⟨[], []⟩] }

/-- A page without any Book JSON-LD block. -/
def noBookPage : Page :=
  { metas := sampleMetas
    ldBlocks := [⟨false, none⟩]
    genreNodes := [] }

/-! ### Supporting lemmas -/

theorem exists_digit_of_trySuffix {c : Char} {rs ds : List Char}
    (h : trySuffix c rs = some ds) : ∃ d ∈ rs, pyIsDigit d = true := by
  simp only [trySuffix] at h
  split at h
  · rename_i hc
    obtain ⟨hne, -⟩ := hc
    obtain ⟨d, hd⟩ := List.exists_mem_of_ne_nil _ hne
    refine ⟨d, ?_, List.mem_takeWhile_imp hd⟩
    exact (List.dropWhile_sublist _).subset ((List.takeWhile_sublist _).subset hd)
  · exact absurd h (by simp)

theorem exists_digit_of_tryDotStar {c : Char} {cs : List Char} {k : Nat}
    {r : List Char × List Char} (h : tryDotStar c cs k = some r) :
    ∃ d ∈ cs, pyIsDigit d = true := by
  induction k with
  | zero =>
    unfold tryDotStar at h
    cases htr : trySuffix c cs with
    | none => rw [htr] at h; exact absurd h (by simp)
    | some ds => exact exists_digit_of_trySuffix htr
  | succ k ih =>
    unfold tryDotStar at h
    cases htr : trySuffix c (cs.drop (k + 1)) with
    | none => rw [htr] at h; exact ih h
    | some ds =>
      obtain ⟨d, hd, hdig⟩ := exists_digit_of_trySuffix htr
      exact ⟨d, (List.drop_sublist _ _).subset hd, hdig⟩

theorem exists_digit_of_reSearchSeries {c : Char} {cs : List Char}
    {r : List Char × List Char} (h : reSearchSeries c cs = some r) :
    ∃ d ∈ cs, pyIsDigit d = true := by
  induction cs with
  | nil => exact exists_digit_of_tryDotStar h
  | cons x xs ih =>
    unfold reSearchSeries at h
    cases hm : matchAt c (x :: xs) with
    | some p => rw [hm] at h; exact exists_digit_of_tryDotStar hm
    | none =>
      rw [hm] at h
      obtain ⟨d, hd, hdig⟩ := ih h
      exact ⟨d, List.mem_cons_of_mem _ hd, hdig⟩

theorem reSearchSeries_eq_none {c : Char} {cs : List Char}
    (h : ∀ d ∈ cs, pyIsDigit d = false) : reSearchSeries c cs = none := by
  cases hr : reSearchSeries c cs with
  | none => rfl
  | some r =>
    obtain ⟨d, hd, hdig⟩ := exists_digit_of_reSearchSeries hr
    rw [h d hd] at hdig
    exact absurd hdig (by simp)

theorem detectSeries_eq_none_of_no_digit (t : String)
    (h : ∀ d ∈ t.data, pyIsDigit d = false) : detectSeries t = none := by
  simp only [detectSeries]
  split <;> rw [reSearchSeries_eq_none h] <;> rfl

theorem isPrefixOf_eq_true_iff {sep l : List Char} :
    sep.isPrefixOf l = true ↔ ∃ t, l = sep ++ t := by
  induction sep generalizing l with
  | nil => simp [List.isPrefixOf]
  | cons a as ih =>
    cases l with
    | nil => simp [List.isPrefixOf]
    | cons b bs =>
      simp only [List.isPrefixOf, Bool.and_eq_true, beq_iff_eq, ih, List.cons_append,
        List.cons.injEq]
      constructor
      · rintro ⟨rfl, t, rfl⟩; exact ⟨t, rfl, rfl⟩
      · rintro ⟨t, rfl, rfl⟩; exact ⟨rfl, t, rfl⟩

theorem exists_decomp_of_findOcc_isSome {sep cs : List Char}
    (h : (findOcc sep cs).isSome = true) : ∃ pre post, cs = pre ++ sep ++ post := by
  induction cs with
  | nil =>
    unfold findOcc at h
    split at h
    · rename_i hsep; exact ⟨[], [], by simp [hsep]⟩
    · simp at h
  | cons c cs ih =>
    unfold findOcc at h
    split at h
    · rename_i hp
      obtain ⟨t, ht⟩ := isPrefixOf_eq_true_iff.mp hp
      exact ⟨[], t, by simp [ht]⟩
    · obtain ⟨pre, post, hd⟩ := ih (by simpa using h)
      exact ⟨c :: pre, post, by simp [hd]⟩

theorem findOcc_eq_none_of_no_decomp {sep cs : List Char}
    (h : ¬ ∃ pre post, cs = pre ++ sep ++ post) : findOcc sep cs = none := by
  cases ho : findOcc sep cs with
  | none => rfl
  | some i => exact absurd (exists_decomp_of_findOcc_isSome (by simp [ho])) h

theorem pySplit_eq_single {sep cs : List Char} (h : findOcc sep cs = none) :
    pySplit sep cs = [cs] := by
  simp only [pySplit, pySplitAux, h]

theorem convertStep_eq_amended (lookup : List (String × List String))
    (acc : List String) (g : String) :
    convertStep lookup acc g = specConvertStepAmended lookup acc g := by
  unfold convertStep specConvertStepAmended
  cases h : pyDictGet lookup (pyLower g) with
  | none => rfl
  | some ts => cases ts <;> rfl

theorem appendNew_nodup {acc : List String} {x : String} (h : acc.Nodup) :
    (appendNew acc x).Nodup := by
  unfold appendNew
  split
  · exact h
  · rename_i hx
    simp [List.nodup_append, h, hx]

theorem foldl_appendNew_nodup (ts : List String) :
    ∀ acc : List String, acc.Nodup → (ts.foldl appendNew acc).Nodup := by
  induction ts with
  | nil => exact fun acc h => h
  | cons t ts ih => exact fun acc h => ih _ (appendNew_nodup h)

theorem convertStep_nodup (lookup : List (String × List String))
    {acc : List String} (g : String) (h : acc.Nodup) :
    (convertStep lookup acc g).Nodup := by
  unfold convertStep
  split
  · exact foldl_appendNew_nodup _ _ h
  · exact appendNew_nodup h

theorem foldl_convertStep_nodup (lookup : List (String × List String))
    (genre_tags : List String) :
    ∀ acc : List String, acc.Nodup → (genre_tags.foldl (convertStep lookup) acc).Nodup := by
  induction genre_tags with
  | nil => exact fun acc h => h
  | cons g gs ih => exact fun acc h => ih _ (convertStep_nodup lookup g h)

theorem cacheEffects_cases (f : Fields) :
    cacheEffects f = [] ∨
    (∃ s, cacheEffects f = [Effect.cacheIsbnToIdentifier s f.ridibooks_id]) ∨
    (∃ c, cacheEffects f = [Effect.cacheIdentifierToCoverUrl f.ridibooks_id c]) ∨
    (∃ s c, cacheEffects f = [Effect.cacheIsbnToIdentifier s f.ridibooks_id,
        Effect.cacheIdentifierToCoverUrl f.ridibooks_id c]) := by
  unfold cacheEffects
  split
  · rcases f.isbn with _ | s <;> rcases f.cover_url with _ | c
    · exact Or.inl rfl
    · by_cases hc : c = "" <;> simp [hc]
    · by_cases hs : s = "" <;> simp [hs]
    · by_cases hs : s = "" <;> by_cases hc : c = "" <;> simp [hs, hc]
  · exact Or.inl rfl

theorem publishedRecords_cacheEffects (f : Fields) :
    publishedRecords (cacheEffects f) = [] := by
  rcases cacheEffects_cases f with h | ⟨s, h⟩ | ⟨c, h⟩ | ⟨s, c, h⟩ <;>
    simp [h, publishedRecords]

theorem cleanedRecords_cacheEffects (f : Fields) :
    cleanedRecords (cacheEffects f) = [] := by
  rcases cacheEffects_cases f with h | ⟨s, h⟩ | ⟨c, h⟩ | ⟨s, c, h⟩ <;>
    simp [h, cleanedRecords]

theorem cacheEffects_all_cache (f : Fields) :
    (cacheEffects f).all isCacheEffect = true := by
  rcases cacheEffects_cases f with h | ⟨s, h⟩ | ⟨c, h⟩ | ⟨s, c, h⟩ <;>
    simp [h, isCacheEffect]

theorem cacheEffects_rank_le (f : Fields) :
    ∀ e ∈ cacheEffects f, effectRank e ≤ 1 := by
  rcases cacheEffects_cases f with h | ⟨s, h⟩ | ⟨c, h⟩ | ⟨s, c, h⟩ <;>
    simp [h, effectRank]

theorem cacheEffects_pairwise (f : Fields) :
    (cacheEffects f).Pairwise (fun a b => effectRank a < effectRank b) := by
  rcases cacheEffects_cases f with h | ⟨s, h⟩ | ⟨c, h⟩ | ⟨s, c, h⟩ <;>
    simp [h, effectRank]

theorem toNat_of_digit {c : Char} (h : pyIsDigit c = true) :
    48 ≤ c.toNat ∧ c.toNat ≤ 57 := by
  simpa only [pyIsDigit, Bool.and_eq_true, decide_eq_true_eq] using h

theorem not_space_of_digit {c : Char} (h : pyIsDigit c = true) : pyIsSpace c = false := by
  cases hs : pyIsSpace c
  · rfl
  · exfalso
    simp only [pyIsSpace, Bool.or_eq_true, decide_eq_true_eq] at hs
    rcases hs with ((((rfl | rfl) | rfl) | rfl) | rfl) | rfl <;> exact absurd h (by decide)

theorem foldl_digitsVal_lt (ds : List Char) :
    ∀ a : Nat, (∀ c ∈ ds, pyIsDigit c = true) →
      ds.foldl (fun x c => 10 * x + (c.toNat - '0'.toNat)) a < 10 ^ ds.length * (a + 1) := by
  induction ds with
  | nil => intro a _; simpa using Nat.lt_succ_self a
  | cons c ds ih =>
    intro a h
    have hc : c.toNat - '0'.toNat ≤ 9 := by
      have h2 := (toNat_of_digit (h c (List.mem_cons_self _ _))).2
      have h0 : '0'.toNat = 48 := rfl
      omega
    have step := ih (10 * a + (c.toNat - '0'.toNat)) (fun x hx => h x (List.mem_cons_of_mem _ hx))
    calc (c :: ds).foldl (fun x c => 10 * x + (c.toNat - '0'.toNat)) a
        = ds.foldl (fun x c => 10 * x + (c.toNat - '0'.toNat)) (10 * a + (c.toNat - '0'.toNat)) := rfl
      _ < 10 ^ ds.length * (10 * a + (c.toNat - '0'.toNat) + 1) := step
      _ ≤ 10 ^ ds.length * (10 * (a + 1)) := by
          apply Nat.mul_le_mul_left
          omega
      _ = 10 ^ (c :: ds).length * (a + 1) := by
          simp [List.length_cons, pow_succ]
          ring

theorem digitsVal_lt (ds : List Char) (h : ∀ c ∈ ds, pyIsDigit c = true) :
    digitsVal ds < 10 ^ ds.length := by
  simpa using foldl_digitsVal_lt ds 0 h

theorem pyStrip_eq_self {ds : List Char} (h : ∀ c ∈ ds, pyIsSpace c = false) :
    pyStrip ds = ds := by
  have hdrop : ∀ l : List Char, (∀ c ∈ l, pyIsSpace c = false) → l.dropWhile pyIsSpace = l := by
    intro l hl
    cases l with
    | nil => rfl
    | cons x xs =>
      rw [List.dropWhile_cons, hl x (List.mem_cons_self _ _)]
      simp
  unfold pyStrip
  rw [hdrop _ h, hdrop _ (fun c hc => h c (List.mem_reverse.mp hc)), List.reverse_reverse]

theorem pyInt_digits {ds : List Char} (hne : ds ≠ []) (h : ∀ c ∈ ds, pyIsDigit c = true) :
    pyInt ds = some (Int.ofNat (digitsVal ds)) := by
  have hstrip : pyStrip ds = ds := pyStrip_eq_self (fun c hc => not_space_of_digit (h c hc))
  have hparse : parseDigits ds = some (digitsVal ds) := by
    unfold parseDigits
    rw [if_pos ⟨hne, by simpa [List.all_eq_true] using h⟩]
  cases ds with
  | nil => exact absurd rfl hne
  | cons c cs =>
    have hcd := h c (List.mem_cons_self _ _)
    unfold pyInt
    rw [hstrip]
    split
    · rename_i ds2 heq
      exfalso
      simp only [List.cons.injEq] at heq
      first
      | (rw [heq.1] at hcd; exact absurd hcd (by decide))
      | (rw [← heq.1] at hcd; exact absurd hcd (by decide))
    · rename_i ds2 heq
      exfalso
      simp only [List.cons.injEq] at heq
      first
      | (rw [heq.1] at hcd; exact absurd hcd (by decide))
      | (rw [← heq.1] at hcd; exact absurd hcd (by decide))
    · rw [hparse]
      rfl

theorem publishedRecords_append (l1 l2 : List Effect) :
    publishedRecords (l1 ++ l2) = publishedRecords l1 ++ publishedRecords l2 := by
  simp [publishedRecords]

theorem cleanedRecords_append (l1 l2 : List Effect) :
    cleanedRecords (l1 ++ l2) = cleanedRecords l1 ++ cleanedRecords l2 := by
  simp [cleanedRecords]

theorem findOcc_isSome_of_decomp {sep pre post : List Char} :
    (findOcc sep (pre ++ sep ++ post)).isSome = true := by
  induction pre with
  | nil =>
    simp only [List.nil_append]
    cases hsp : sep ++ post with
    | nil =>
      have hsep : sep = [] := by
        cases sep with
        | nil => rfl
        | cons a as => simp at hsp
      unfold findOcc
      rw [if_pos hsep]
      rfl
    | cons c cs2 =>
      unfold findOcc
      rw [if_pos (isPrefixOf_eq_true_iff.mpr ⟨post, hsp.symm⟩)]
      rfl
  | cons a pre ih =>
    simp only [List.cons_append]
    unfold findOcc
    split
    · rfl
    · simpa using ih

theorem find_meta_eq (node : List MetaEntry) (p : String) :
    find_meta node p = ((node.find? (fun x => x.property = some p)).elim
      (Except.error Err.missingField) (fun m => Except.ok m.content)) := by
  induction node with
  | nil => rfl
  | cons m ms ih =>
    by_cases h : m.property = some p
    · simp [find_meta, List.filter_cons, List.find?_cons, h]
    · have hfil : (m :: ms).filter (fun x => x.property = some p)
          = ms.filter (fun x => x.property = some p) := by
        simp [List.filter_cons, h]
      have hfind : (m :: ms).find? (fun x => x.property = some p)
          = ms.find? (fun x => x.property = some p) := by
        simp [List.find?_cons, h]
      rw [hfind, ← ih]
      unfold find_meta
      rw [hfil]

/-! ### Claim theorems -/

/-- C1: evaluation of the code's series detection at the claim's inputs.
The claim correctly states the intent, but the greedy `(.*)` of the
pattern `(.*)\s*(\d+)권` (resp. `화`) makes the code deviate: the
captured prefix keeps the whitespace before the number — so
`"Mystery Series 3권"` yields the series name `"Mystery Series "` with a
trailing space, not `"Mystery Series"` — and with a multi-digit number
it also keeps all but the last digit, so `"Action Tales 12화"` yields
name `"Action Tales 1"` and index `2.0`, not `"Action Tales"` and
`12.0`.  A title matching neither pattern (in particular one with no
digit at all) still yields no series information, as claimed. -/
theorem series_detection_code_behavior :
    detectSeries "Mystery Series 3권" = some ("Mystery Series ", 3) ∧
    detectSeries "Action Tales 12화" = some ("Action Tales 1", 2) ∧
    some (("Action Tales 1" : String), (2 : ℚ)) ≠ some (("Action Tales" : String), (12 : ℚ)) ∧
    some (("Mystery Series " : String), (3 : ℚ)) ≠ some (("Mystery Series" : String), (3 : ℚ)) ∧
    detectSeries "Plain Title" = none ∧
    ∀ t : String, (∀ d ∈ t.data, pyIsDigit d = false) → detectSeries t = none := by
  exact ⟨by decide, by decide, by decide, by decide, by decide,
    detectSeries_eq_none_of_no_digit⟩

/-- C1, witness applying the no-digit part at a digit-free title. -/
theorem series_detection_code_behavior_witness : detectSeries "No Digits Here" = none :=
  series_detection_code_behavior.2.2.2.2.2 "No Digits Here" (by decide)

/-- C2, counterexample: a raw tag whose lowercased form is mapped to the
empty sequence is appended raw by the code (`if tags:` is false for an
empty list), while the claimed algorithm appends nothing for it. -/
theorem genre_mapping_counterexample :
    convert_genres_to_calibre_tags [("x", [])] ["X"] = ["X"] ∧
    specConvertGenres [("x", [])] ["X"] = [] ∧
    (["X"] : List String) ≠ [] := by
  refine ⟨by decide, by decide, by decide⟩

/-- C2, amended: each raw tag is lowercased and looked up; if found with
a nonempty mapped sequence, every mapped tag not already in the output
is appended; if not found — or found but mapped to the empty sequence,
which Python truthiness treats as not found — the raw tag is appended if
not already present.  The output is de-duplicated in first-seen order,
and `["Fantasy", "fantasy", "SciFi"]` against
`{"fantasy": ["Fantasy & SF"]}` yields `["Fantasy & SF", "SciFi"]`. -/
theorem genre_mapping_amended :
    (∀ lookup genre_tags, convert_genres_to_calibre_tags lookup genre_tags
        = specConvertGenresAmended lookup genre_tags) ∧
    (∀ lookup genre_tags, (convert_genres_to_calibre_tags lookup genre_tags).Nodup) ∧
    convert_genres_to_calibre_tags [("fantasy", ["Fantasy & SF"])]
        ["Fantasy", "fantasy", "SciFi"] = ["Fantasy & SF", "SciFi"] := by
  refine ⟨?_, ?_, by decide⟩
  · intro lookup genre_tags
    have hstep : convertStep (lookup.map fun p => (pyLower p.1, p.2))
        = specConvertStepAmended (lookup.map fun p => (pyLower p.1, p.2)) :=
      funext fun acc => funext fun g => convertStep_eq_amended _ acc g
    simp only [convert_genres_to_calibre_tags, specConvertGenresAmended]
    rw [hstep]
  · intro lookup genre_tags
    unfold convert_genres_to_calibre_tags
    exact foldl_convertStep_nodup _ genre_tags [] (by simp)

/-- C8, counterexample: the claim predicts that a tag mapped to the
empty sequence is dropped, but the code passes the raw tag through. -/
theorem empty_mapping_counterexample :
    convert_genres_to_calibre_tags [("a", [])] ["a"] = ["a"] ∧
    (["a"] : List String) ≠ [] := by
  refine ⟨by decide, by decide⟩

/-- C8, amended: a raw tag whose lowercased form is present in the
mapping but mapped to the empty sequence is treated exactly like an
unmapped tag (Python `if tags:` is false for `[]`): the raw tag itself
is appended if not already present. -/
theorem empty_mapping_passthrough :
    ∀ (lookup : List (String × List String)) (acc : List String) (g : String),
      pyDictGet lookup (pyLower g) = some [] →
      convertStep lookup acc g = appendNew acc g := by
  intro lookup acc g h
  unfold convertStep
  rw [h]

/-- C8, witness for the amended theorem. -/
theorem empty_mapping_passthrough_witness :
    convertStep [("b", [])] [] "B" = appendNew [] "B" :=
  empty_mapping_passthrough [("b", [])] [] "B" (by decide)

/-- C6, counterexample: `_format_item` HTML-unescapes *before* stripping
quotes, so an input whose surrounding quotes are entity-encoded has them
decoded and then stripped — `'&quot;x&quot;'` becomes `'x'`, it does not
keep its literal quotes (the spec's strip-then-unescape order would have
produced `'"x"'`). -/
theorem stripQuotes_order_counterexample :
    format_item "&quot;x&quot;" = "x" ∧
    spec_stripQuotes_then_unescape "&quot;x&quot;" = "\"x\"" ∧
    ("x" : String) ≠ "\"x\"" := by
  refine ⟨by decide, by decide, by decide⟩

/-- C6, amended: for every input string, `_format_item` is the ordered
composition unescape-then-strip (`re.sub('^"(.*)"$', '\\1',
unescape(str))`): HTML entities are decoded first and one layer of
surrounding double quotes is stripped afterwards, so entity-encoded
surrounding quotes such as in `'&quot;x&quot;'` are decoded and then
stripped, yielding `'x'`. -/
theorem stripQuotes_order_amended :
    (∀ s : String, format_item s = (⟨stripOuterQuotes (unescapeChars s.data)⟩ : String)) ∧
    format_item "\"y\"" = "y" ∧
    format_item "&quot;x&quot;" = "x" ∧
    format_item "a&amp;b" = "a&b" := by
  exact ⟨fun s => rfl, by decide, by decide, by decide⟩

/-- C5, counterexample: `_format_date` never checks the length — the
7-character string `"2023011"` parses successfully to 2023-01-01 instead
of failing, because the slices `[0:4]`, `[4:6]`, `[6:]` simply come out
short. -/
theorem format_date_counterexample :
    format_date "2023011" = .ok ⟨2023, 1, 1, true⟩ ∧
    ("2023011" : String).length ≠ 8 := by
  refine ⟨by decide, by decide⟩

/-- C5, amended: for every 8-digit string denoting a real calendar date,
`_format_date` returns the encoded year/month/day at UTC; failure occurs
exactly when one of the slices `[0:4]`, `[4:6]`, `[6:]` fails to parse
as a Python integer or the parsed components are rejected by the
`datetime` constructor — invalid lengths as such are not rejected, e.g.
the 7-character `"2023011"` parses to 2023-01-01. -/
theorem format_date_amended :
    (∀ s : String, s.data.length = 8 → (∀ c ∈ s.data, pyIsDigit c = true) →
      1 ≤ digitsVal (s.data.take 4) →
      1 ≤ digitsVal ((s.data.drop 4).take 2) → digitsVal ((s.data.drop 4).take 2) ≤ 12 →
      1 ≤ digitsVal (s.data.drop 6) →
      (digitsVal (s.data.drop 6) : Int) ≤
        daysInMonth (digitsVal (s.data.take 4)) (digitsVal ((s.data.drop 4).take 2)) →
      format_date s = .ok ⟨digitsVal (s.data.take 4), digitsVal ((s.data.drop 4).take 2),
        digitsVal (s.data.drop 6), true⟩) ∧
    (∀ s : String, (pyInt (s.data.take 4) = none ∨ pyInt ((s.data.drop 4).take 2) = none ∨
        pyInt (s.data.drop 6) = none) → ∃ e, format_date s = .error e) ∧
    format_date "20231301" = .error .dateFormat ∧
    format_date "abcdefgh" = .error .dateFormat ∧
    format_date "2023011" = .ok ⟨2023, 1, 1, true⟩ := by
  refine ⟨?_, ?_, by decide, by decide, by decide⟩
  · intro s h8 hdig h1y h1m h12 h1d hdm
    have hy : pyInt (s.data.take 4) = some (Int.ofNat (digitsVal (s.data.take 4))) := by
      apply pyInt_digits
      · have hl : (s.data.take 4).length = 4 := by rw [List.length_take]; omega
        intro hnil; rw [hnil] at hl; simp at hl
      · exact fun c hc => hdig c (List.take_subset _ _ hc)
    have hm : pyInt ((s.data.drop 4).take 2)
        = some (Int.ofNat (digitsVal ((s.data.drop 4).take 2))) := by
      apply pyInt_digits
      · have hl : ((s.data.drop 4).take 2).length = 2 := by
          rw [List.length_take, List.length_drop]; omega
        intro hnil; rw [hnil] at hl; simp at hl
      · exact fun c hc => hdig c (List.drop_subset _ _ (List.take_subset _ _ hc))
    have hd : pyInt (s.data.drop 6) = some (Int.ofNat (digitsVal (s.data.drop 6))) := by
      apply pyInt_digits
      · have hl : (s.data.drop 6).length = 2 := by rw [List.length_drop]; omega
        intro hnil; rw [hnil] at hl; simp at hl
      · exact fun c hc => hdig c (List.drop_subset _ _ hc)
    have hy4 : digitsVal (s.data.take 4) ≤ 9999 := by
      have hlt := digitsVal_lt (s.data.take 4) (fun c hc => hdig c (List.take_subset _ _ hc))
      have hl : (s.data.take 4).length = 4 := by rw [List.length_take]; omega
      rw [hl] at hlt
      omega
    simp only [format_date]
    rw [hy, hm, hd]
    show mkDatetimeUtc _ _ _ = _
    unfold mkDatetimeUtc
    split
    · rfl
    · rename_i hcond
      exfalso
      apply hcond
      simp only [Int.ofNat_eq_coe]
      refine ⟨?_, ?_, ?_, ?_, ?_, ?_⟩ <;> omega
  · intro s h
    rcases h with h | h | h
    · refine ⟨.dateFormat, ?_⟩
      simp only [format_date]
      rw [h]
      rfl
    · cases hy : pyInt (s.data.take 4) with
      | none =>
        refine ⟨.dateFormat, ?_⟩
        simp only [format_date]
        rw [hy]
        rfl
      | some y =>
        refine ⟨.dateFormat, ?_⟩
        simp only [format_date]
        rw [hy, h]
        rfl
    · cases hy : pyInt (s.data.take 4) with
      | none =>
        refine ⟨.dateFormat, ?_⟩
        simp only [format_date]
        rw [hy]
        rfl
      | some y =>
        cases hm : pyInt ((s.data.drop 4).take 2) with
        | none =>
          refine ⟨.dateFormat, ?_⟩
          simp only [format_date]
          rw [hy, hm]
          rfl
        | some m =>
          refine ⟨.dateFormat, ?_⟩
          simp only [format_date]
          rw [hy, hm, h]
          rfl

/-- C5, witness applying the amended theorem at the valid date
`"20230101"`. -/
theorem format_date_amended_witness : format_date "20230101" = .ok ⟨2023, 1, 1, true⟩ :=
  format_date_amended.1 "20230101" (by decide) (by decide) (by decide) (by decide)
    (by decide) (by decide) (by decide)

/-- C7: the source ID is the token of the URL after the fixed segment
`"/books/"` and before the `"?_"` query delimiter —
`".../books/987654?_s=search"` yields `"987654"` — and a URL not
containing `"/books/"` makes the derivation fail (`IndexError` on
`x[1]`, the spec's `MissingFieldError`). -/
theorem id_extraction :
    extractRidibooksId "https://ridibooks.com/books/987654?_s=search" = .ok "987654" ∧
    ∀ url : String, (¬ ∃ pre post, url.data = pre ++ "/books/".data ++ post) →
      extractRidibooksId url = .error .missingField := by
  constructor
  · decide
  · intro url h
    have hocc : findOcc "/books/".data url.data = none := findOcc_eq_none_of_no_decomp h
    unfold extractRidibooksId
    rw [pySplit_eq_single hocc]

/-- C7, witness: a URL without the `/books/` segment fails. -/
theorem id_extraction_witness :
    extractRidibooksId "https://example.com/page" = .error .missingField := by
  apply id_extraction.2
  rintro ⟨pre, post, hd⟩
  have h1 := @findOcc_isSome_of_decomp "/books/".data pre post
  rw [← hd] at h1
  exact absurd h1 (by decide)

/-- C9: `_find_meta` returns the `content` attribute of the first node
whose `property` equals the request (with duplicates the first match
wins), it fails if and only if no node matches, and the only failure it
produces is the missing-field error — never a soft default. -/
theorem find_meta_first_match :
    ∀ (node : List MetaEntry) (property : String),
      ((∃ e, find_meta node property = .error e) ↔
        ∀ m ∈ node, m.property ≠ some property) ∧
      (∀ e, find_meta node property = .error e → e = .missingField) ∧
      (∀ m, node.find? (fun x => x.property = some property) = some m →
        find_meta node property = .ok m.content) := by
  intro node property
  refine ⟨?_, ?_, ?_⟩
  · rw [find_meta_eq]
    cases hf : node.find? (fun x => x.property = some property) with
    | none =>
      simp only [Option.elim]
      constructor
      · intro _
        intro m hm hp
        have := List.find?_eq_none.mp hf m hm
        simp [hp] at this
      · exact fun _ => ⟨.missingField, rfl⟩
    | some m =>
      simp only [Option.elim]
      constructor
      · rintro ⟨e, he⟩
        exact absurd he (by simp)
      · intro hall
        have hmem := List.mem_of_find?_eq_some hf
        have hp := List.find?_some hf
        simp only [decide_eq_true_eq] at hp
        exact absurd hp (hall m hmem)
  · rw [find_meta_eq]
    cases hf : node.find? (fun x => x.property = some property) with
    | none =>
      intro e he
      simpa using he.symm
    | some m =>
      intro e he
      exact absurd he (by simp)
  · intro m hf
    rw [find_meta_eq, hf]
    rfl

/-- C9, witness: with duplicate properties the first match wins. -/
theorem find_meta_first_match_witness :
    find_meta [⟨some "og:title", some "T1"⟩, ⟨some "og:title", some "T2"⟩] "og:title"
      = .ok (some "T1") :=
  (find_meta_first_match [⟨some "og:title", some "T1"⟩, ⟨some "og:title", some "T2"⟩]
    "og:title").2.2 ⟨some "og:title", some "T1"⟩ (by decide)

/-- C10: when the Book record has a `translator` field the authors
sequence is the split author names followed by the split translator
names each suffixed with `(역자)` — translators never precede authors —
and without the field it is exactly the split author names. -/
theorem authors_translator_order :
    ∀ (i : BookInfo) (aname : String),
      i.author = some ⟨some aname⟩ →
      (i.translator = none → buildAuthors i = .ok (format_list aname)) ∧
      (∀ tname, i.translator = some ⟨some tname⟩ →
        buildAuthors i = .ok (format_list aname
          ++ (format_list tname).map (fun t => t ++ "(역자)"))) := by
  intro i aname ha
  constructor
  · intro ht
    unfold buildAuthors
    rw [ha, ht]
    rfl
  · intro tname ht
    unfold buildAuthors
    rw [ha, ht]
    rfl

/-- C10, witness at the sample Book record (author and translator). -/
theorem authors_translator_order_witness :
    buildAuthors sampleInfo = .ok (format_list "Kim Author"
      ++ (format_list "Lee Trans").map (fun t => t ++ "(역자)")) :=
  (authors_translator_order sampleInfo "Kim Author" rfl).2 "Lee Trans" rfl

/-- C3: a record reaches the result channel exactly when the whole
pipeline succeeded (at most one record per invocation, and any published
record is the one assembled from the successfully extracted fields — no
partial record exists); in particular a page with no Book JSON-LD block
makes the operation fail with nothing published and only the error
reported. -/
theorem no_partial_publish :
    ∀ (gm : List (String × List String)) (rel : Int) (url : String) (fetched : Option Page),
      (((load_details gm rel url fetched).2 = none) ↔
        publishedRecords (load_details gm rel url fetched).1 ≠ []) ∧
      (publishedRecords (load_details gm rel url fetched).1).length ≤ 1 ∧
      (∀ mi ∈ publishedRecords (load_details gm rel url fetched).1,
        ∃ page f, fetched = some page ∧ extractFields url page = .ok f ∧
          assembleRecord gm rel page f = .ok mi) ∧
      (∀ page, fetched = some page →
        page.ldBlocks.filter (fun b => b.hasBookMarker) = [] →
        load_details gm rel url fetched = ([], some .malformedStructuredData)) := by
  intro gm rel url fetched
  have hnobook : ∀ page : Page, page.ldBlocks.filter (fun b => b.hasBookMarker) = [] →
      extractFields url page = .error .malformedStructuredData := by
    intro page hfil
    unfold extractFields extractBookInfo
    rw [hfil]
    rfl
  cases fetched with
  | none =>
    refine ⟨by simp [load_details, publishedRecords], by simp [load_details, publishedRecords],
      by simp [load_details, publishedRecords], ?_⟩
    intro page hp
    exact absurd hp (by simp)
  | some page =>
    cases hf : extractFields url page with
    | error e =>
      refine ⟨by simp [load_details, hf, publishedRecords],
        by simp [load_details, hf, publishedRecords],
        by simp [load_details, hf, publishedRecords], ?_⟩
      intro page2 hp hfil
      have hp2 : page2 = page := by injection hp with h2; exact h2.symm
      subst hp2
      rw [hnobook page2 hfil] at hf
      injection hf with he
      subst he
      simp [load_details, hnobook page2 hfil]
    | ok f =>
      cases ha : assembleRecord gm rel page f with
      | error e =>
        refine ⟨?_, ?_, ?_, ?_⟩
        · simp [load_details, hf, ha, publishedRecords_cacheEffects]
        · simp [load_details, hf, ha, publishedRecords_cacheEffects]
        · simp [load_details, hf, ha, publishedRecords_cacheEffects]
        · intro page2 hp hfil
          have hp2 : page2 = page := by injection hp with h2; exact h2.symm
          subst hp2
          rw [hnobook page2 hfil] at hf
          exact absurd hf (by simp)
      | ok mi =>
        have hpub : publishedRecords (load_details gm rel url (some page)).1 = [mi] := by
          simp only [load_details, hf, ha]
          rw [publishedRecords_append, publishedRecords_cacheEffects]
          rfl
        refine ⟨?_, ?_, ?_, ?_⟩
        · rw [hpub]
          simp [load_details, hf, ha]
        · rw [hpub]
          simp
        · intro mi2 hmi
          rw [hpub] at hmi
          simp at hmi
          subst hmi
          exact ⟨page, f, rfl, hf, ha⟩
        · intro page2 hp hfil
          have hp2 : page2 = page := by injection hp with h2; exact h2.symm
          subst hp2
          rw [hnobook page2 hfil] at hf
          exact absurd hf (by simp)

/-- C3, witness: a page without a Book JSON-LD block publishes nothing
and surfaces only the malformed-data failure. -/
theorem no_partial_publish_witness :
    load_details [] 0 "u" (some noBookPage) = ([], some .malformedStructuredData) :=
  (no_partial_publish [] 0 "u" (some noBookPage)).2.2.2 noBookPage rfl (by decide)

/-- C4, counterexample: on a page whose first genre-breadcrumb node has
no links, tag mapping fails (`IndexError` at
`genre_node.xpath('a[1]')[0]`) — but both cache notifications have
already been performed, contradicting the claim that a failing stage
leaves no cache notification performed. -/
theorem effect_order_counterexample :
    load_details [] 7 goodUrl (some badGenrePage) =
      ([Effect.cacheIsbnToIdentifier "9788900000000" "987654",
        Effect.cacheIdentifierToCoverUrl "987654" "https://img.example/cover.jpg"],
       some Err.missingField) ∧
    ([Effect.cacheIsbnToIdentifier "9788900000000" "987654",
      Effect.cacheIdentifierToCoverUrl "987654" "https://img.example/cover.jpg"]
        : List Effect) ≠ [] := by
  refine ⟨by decide, by decide⟩

/-- C4, amended: the side effects that do occur always appear in the
stated order (ISBN↔ID cache, then ID↔cover-URL cache, then the cleanup
hook, then the publish), and the cleanup hook and publish — which always
receive the same record — happen exactly in the invocations where every
stage succeeded; the two cache notifications, however, are performed as
soon as field extraction through the rating has succeeded, before tag
mapping and series detection, so a failure in those later stages leaves
the cache notifications already performed. -/
theorem effect_order_amended :
    ∀ (gm : List (String × List String)) (rel : Int) (url : String) (fetched : Option Page),
      (load_details gm rel url fetched).1.Pairwise (fun a b => effectRank a < effectRank b) ∧
      (((load_details gm rel url fetched).2 = none) ↔
        (load_details gm rel url fetched).1.all isCacheEffect = false) ∧
      cleanedRecords (load_details gm rel url fetched).1 =
        publishedRecords (load_details gm rel url fetched).1 := by
  intro gm rel url fetched
  cases fetched with
  | none => simp [load_details, cleanedRecords, publishedRecords]
  | some page =>
    cases hf : extractFields url page with
    | error e => simp [load_details, hf, cleanedRecords, publishedRecords]
    | ok f =>
      cases ha : assembleRecord gm rel page f with
      | error e =>
        refine ⟨?_, ?_, ?_⟩
        · simpa [load_details, hf, ha] using cacheEffects_pairwise f
        · simp [load_details, hf, ha, cacheEffects_all_cache f]
        · simp [load_details, hf, ha, cleanedRecords_cacheEffects,
            publishedRecords_cacheEffects]
      | ok mi =>
        refine ⟨?_, ?_, ?_⟩
        · simp only [load_details, hf, ha]
          rw [List.pairwise_append]
          refine ⟨cacheEffects_pairwise f, by simp [effectRank], ?_⟩
          intro a ha2 b hb
          have h1 := cacheEffects_rank_le f a ha2
          simp only [List.mem_cons, List.not_mem_nil, or_false] at hb
          rcases hb with rfl | rfl <;>
            exact lt_of_le_of_lt h1 (by simp [effectRank])
        · have hall : ((cacheEffects f) ++ [Effect.cleanDownloadedMetadata mi,
              Effect.publish mi]).all isCacheEffect = false := by
            rw [List.all_append]
            simp [isCacheEffect]
          simp [load_details, hf, ha, hall]
        · simp only [load_details, hf, ha]
          rw [publishedRecords_append, publishedRecords_cacheEffects,
            cleanedRecords_append, cleanedRecords_cacheEffects]
          rfl

/-- C4, witness: the order invariant applied at the failing-genre page. -/
theorem effect_order_amended_witness :
    (load_details [] 7 goodUrl (some badGenrePage)).1.Pairwise
      (fun a b => effectRank a < effectRank b) :=
  (effect_order_amended [] 7 goodUrl (some badGenrePage)).1

end Ridibooks

